import Mathlib

/-!
Verification of the bit-packed Game of Life engine (`src/domain/`):
shallow embedding of `bit_grid.rs`, `rules.rs`, `simd_life.rs` and
`temporal_blocking.rs`, with theorems settling the specification claims.
Machine words (`u64`) are modelled as `Nat` with explicit `% 2 ^ 64`
wherever the Rust code can overflow a 64-bit register.
-/

set_option maxRecDepth 100000

namespace GameOfLife

/-- Cell state, from `cell.rs`. -/
inductive Cell where
  | Dead
  | Alive
deriving DecidableEq

/-- The closed set of rule variants implemented in `rules.rs`. -/
inductive Rule where
  | conway
  | highlife
  | seeds
  | dayandnight
deriving DecidableEq, Fintype

/-- Embedding of `ConwayRule::evolve` (B3/S23). -/
def ConwayRule.evolve (current : Cell) (neighbors : Nat) : Cell :=
  match current, neighbors with
  | Cell.Alive, 2 => Cell.Alive
  | Cell.Alive, 3 => Cell.Alive
  | Cell.Dead, 3 => Cell.Alive
  | _, _ => Cell.Dead

/-- Embedding of `HighLifeRule::evolve` (B36/S23). -/
def HighLifeRule.evolve (current : Cell) (neighbors : Nat) : Cell :=
  match current, neighbors with
  | Cell.Alive, 2 => Cell.Alive
  | Cell.Alive, 3 => Cell.Alive
  | Cell.Dead, 3 => Cell.Alive
  | Cell.Dead, 6 => Cell.Alive
  | _, _ => Cell.Dead

/-- Embedding of `SeedsRule::evolve` (B2/S). -/
def SeedsRule.evolve (current : Cell) (neighbors : Nat) : Cell :=
  match current, neighbors with
  | Cell.Dead, 2 => Cell.Alive
  | _, _ => Cell.Dead

/-- Embedding of `DayAndNightRule::evolve` (B3678/S34678). -/
def DayAndNightRule.evolve (current : Cell) (neighbors : Nat) : Cell :=
  match current, neighbors with
  | Cell.Alive, 3 => Cell.Alive
  | Cell.Alive, 4 => Cell.Alive
  | Cell.Alive, 6 => Cell.Alive
  | Cell.Alive, 7 => Cell.Alive
  | Cell.Alive, 8 => Cell.Alive
  | Cell.Dead, 3 => Cell.Alive
  | Cell.Dead, 6 => Cell.Alive
  | Cell.Dead, 7 => Cell.Alive
  | Cell.Dead, 8 => Cell.Alive
  | _, _ => Cell.Dead

/-- Dynamic dispatch of the `Rule` trait over the four implementations. -/
def Rule.evolve : Rule → Cell → Nat → Cell
  | .conway => ConwayRule.evolve
  | .highlife => HighLifeRule.evolve
  | .seeds => SeedsRule.evolve
  | .dayandnight => DayAndNightRule.evolve

/-- Embedding of `Chunk64::get`: `(self.0 >> idx) & 1 == 1`. -/
def Chunk64.get (c idx : Nat) : Bool :=
  (c >>> idx) &&& 1 == 1

/-- Embedding of `Chunk64::set`: set or clear bit `idx` of the 64-bit word. -/
def Chunk64.set (c idx : Nat) (alive : Bool) : Nat :=
  if alive then c ||| (1 <<< idx)
  else c &&& ((1 <<< idx) ^^^ (2 ^ 64 - 1))

/-- Embedding of the `BitGrid` struct: width/height in cells, row width in
64-cell chunks, and the flat row-major chunk array (each entry a `u64`). -/
structure BitGrid where
  width : Nat
  height : Nat
  chunk_width : Nat
  chunks : List Nat
deriving DecidableEq

/-- Embedding of `BitGrid::new`: zero-filled grid with
`chunk_width = ceil(width/64)` and `chunk_width * height` chunks. -/
def BitGrid.new (width height : Nat) : BitGrid :=
  { width := width
    height := height
    chunk_width := (width + 63) / 64
    chunks := List.replicate ((width + 63) / 64 * height) 0 }

/-- Embedding of `BitGrid::dimensions`. -/
def BitGrid.dimensions (g : BitGrid) : Nat × Nat :=
  (g.width, g.height)

/-- Embedding of `BitGrid::get`: out-of-range coordinates read as dead. -/
def BitGrid.get (g : BitGrid) (x y : Nat) : Bool :=
  if x ≥ g.width ∨ y ≥ g.height then false
  else Chunk64.get (g.chunks.getD (y * g.chunk_width + x / 64) 0) (x % 64)

/-- Embedding of `BitGrid::set`: out-of-range coordinates are a no-op. -/
def BitGrid.set (g : BitGrid) (x y : Nat) (alive : Bool) : BitGrid :=
  if x ≥ g.width ∨ y ≥ g.height then g
  else
    let chunk_idx := y * g.chunk_width + x / 64
    let updated := Chunk64.set (g.chunks.getD chunk_idx 0) (x % 64) alive
    { g with chunks := g.chunks.set chunk_idx updated }

/-- Embedding of `BitGrid::get_chunk`: out-of-range word coordinates read 0. -/
def BitGrid.get_chunk (g : BitGrid) (chunk_x y : Nat) : Nat :=
  if y ≥ g.height ∨ chunk_x ≥ g.chunk_width then 0
  else g.chunks.getD (y * g.chunk_width + chunk_x) 0

/-- Embedding of `BitGrid::set_chunk`: out-of-range word coordinates no-op. -/
def BitGrid.set_chunk (g : BitGrid) (chunk_x y : Nat) (value : Nat) : BitGrid :=
  if y ≥ g.height ∨ chunk_x ≥ g.chunk_width then g
  else { g with chunks := g.chunks.set (y * g.chunk_width + chunk_x) value }

/-- Embedding of `BitGrid::memory_bytes` (`size_of::<Chunk64>() = 8`). -/
def BitGrid.memory_bytes (g : BitGrid) : Nat :=
  g.chunks.length * 8

/-- Embedding of `BitGrid::count_neighbors`: 8-neighbour toroidal count using
the same `((x + dx) % w + w) % w` wrap arithmetic as the Rust `i32` code. -/
def BitGrid.count_neighbors (g : BitGrid) (x y : Nat) : Nat :=
  let w : Int := g.width
  let h : Int := g.height
  let offsets : List (Int × Int) :=
    [(-1, -1), (0, -1), (1, -1), (-1, 0), (1, 0), (-1, 1), (0, 1), (1, 1)]
  offsets.foldl
    (fun count d =>
      let nx := (((x : Int) + d.1) % w + w) % w
      let ny := (((y : Int) + d.2) % h + h) % h
      if g.get nx.toNat ny.toNat then count + 1 else count)
    0

/-- Embedding of `BitGrid::evolve`: serial cell-by-cell evolution into a fresh
zeroed grid, setting exactly the cells the rule makes alive. -/
def BitGrid.evolve (g : BitGrid) (rule : Rule) : BitGrid :=
  (List.range g.height).foldl
    (fun next y =>
      (List.range g.width).foldl
        (fun next x =>
          let neighbors := g.count_neighbors x y
          let current := if g.get x y then Cell.Alive else Cell.Dead
          let next_state := rule.evolve current neighbors
          if next_state = Cell.Alive then next.set x y true else next)
        next)
    (BitGrid.new g.width g.height)

/-- Embedding of `BitGrid::evolve_parallel`: each row is mapped (in the source,
in parallel) to the list of its cells that become alive, then the collected
row results are applied to a fresh zeroed grid in row order. -/
def BitGrid.evolve_parallel (g : BitGrid) (rule : Rule) : BitGrid :=
  let row_results : List (List (Nat × Bool)) :=
    (List.range g.height).map
      (fun y =>
        (List.range g.width).foldl
          (fun row_cells x =>
            let neighbors := g.count_neighbors x y
            let current := if g.get x y then Cell.Alive else Cell.Dead
            let next_state := rule.evolve current neighbors
            if next_state = Cell.Alive then row_cells ++ [(x, true)] else row_cells)
          [])
  row_results.enum.foldl
    (fun next yrow =>
      yrow.2.foldl (fun next xc => next.set xc.1 yrow.1 true) next)
    (BitGrid.new g.width g.height)

/-- Embedding of `build_rule_lookup`: 32-entry table indexed by
`(is_alive << 4) | neighbor_count`, filled for counts 0..=8. -/
def build_rule_lookup (rule : Rule) : List Bool :=
  (List.range 9).foldl
    (fun table neighbors =>
      let table := table.set neighbors (rule.evolve Cell.Dead neighbors == Cell.Alive)
      table.set (16 + neighbors) (rule.evolve Cell.Alive neighbors == Cell.Alive))
    (List.replicate 32 false)

/-- Horizontal shift of a row word fetching the lane+1 neighbours: the word is
shifted right by one and the boundary bit is injected at the vacated high bit
(`(w >> 1) | if left_bit { 1 << 63 } else { 0 }` in `compute_neighbor_counts`). -/
def word_left (w : Nat) (left_bit : Bool) : Nat :=
  (w >>> 1) ||| (if left_bit then 1 <<< 63 else 0)

/-- Horizontal shift of a row word fetching the lane-1 neighbours: the word is
shifted left by one (wrapping at 64 bits as `u64` does) and the boundary bit is
injected at the vacated low bit. -/
def word_right (w : Nat) (right_bit : Bool) : Nat :=
  ((w <<< 1) % 2 ^ 64) ||| (if right_bit then 1 else 0)

/-- Embedding of `full_adder`: `sum = a XOR b XOR c`, `carry = majority`. -/
def full_adder (a b c : Nat) : Nat × Nat :=
  ((a ^^^ b) ^^^ c, (a &&& b) ||| (c &&& (a ^^^ b)))

/-- Embedding of `half_adder`: `sum = a XOR b`, `carry = a AND b`. -/
def half_adder (a b : Nat) : Nat × Nat :=
  (a ^^^ b, a &&& b)

/-- Embedding of `compute_neighbor_counts`: carry-save adder network over the
eight shifted neighbour words, returning `(bit0, bit1, bit2, bit3)`. -/
def compute_neighbor_counts (above current below : Nat)
    (left_bit_above right_bit_above left_bit_current right_bit_current
      left_bit_below right_bit_below : Bool) : Nat × Nat × Nat × Nat :=
  let above_left := word_left above left_bit_above
  let above_right := word_right above right_bit_above
  let current_left := word_left current left_bit_current
  let current_right := word_right current right_bit_current
  let below_left := word_left below left_bit_below
  let below_right := word_right below right_bit_below
  let p1 := full_adder above_left above above_right
  let p2 := full_adder current_left current_right below_left
  let p3 := full_adder below below_right 0
  let pa := full_adder p1.1 p2.1 p3.1
  let pb := full_adder p1.2 p2.2 p3.2
  let q0 := half_adder pa.1 0
  let q1 := full_adder pb.1 pa.2 q0.2
  let q2 := full_adder pb.2 0 q1.2
  (q0.1, q1.1, q2.1, q2.2)

/-- One lane of `apply_rule_lookup`: the body of its `for i in 0..64` loop,
extracting the 4-bit count and current bit and indexing the lookup table. -/
def lane_alive (current b0 b1 b2 b3 : Nat) (lookup : List Bool) (i : Nat) : Bool :=
  let count := (((b3 >>> i) &&& 1) <<< 3) ||| (((b2 >>> i) &&& 1) <<< 2) |||
    (((b1 >>> i) &&& 1) <<< 1) ||| ((b0 >>> i) &&& 1)
  let is_alive := (current >>> i) &&& 1
  let idx := (is_alive <<< 4) ||| count
  lookup.getD idx false

/-- Embedding of `apply_rule_lookup`: accumulate `result |= 1 << i` over all 64
lanes whose looked-up next state is alive. -/
def apply_rule_lookup (current b0 b1 b2 b3 : Nat) (lookup : List Bool) : Nat :=
  (List.range 64).foldl
    (fun result i =>
      if lane_alive current b0 b1 b2 b3 lookup i then result ||| (1 <<< i) else result)
    0

/-- Embedding of `compute_next_chunk_conway`: closed-form Conway fast path
`count_is_3 | (current & count_is_2)` on the bit-sliced count words. -/
def compute_next_chunk_conway (above current below : Nat)
    (left_bit_above right_bit_above left_bit_current right_bit_current
      left_bit_below right_bit_below : Bool) : Nat :=
  let r := compute_neighbor_counts above current below
    left_bit_above right_bit_above left_bit_current right_bit_current
    left_bit_below right_bit_below
  let bit0 := r.1
  let bit1 := r.2.1
  let bit2 := r.2.2.1
  let bit3 := r.2.2.2
  let count_is_2 := (bit3 ^^^ (2 ^ 64 - 1)) &&& (bit2 ^^^ (2 ^ 64 - 1)) &&& bit1 &&&
    (bit0 ^^^ (2 ^ 64 - 1))
  let count_is_3 := (bit3 ^^^ (2 ^ 64 - 1)) &&& (bit2 ^^^ (2 ^ 64 - 1)) &&& bit1 &&& bit0
  count_is_3 ||| (current &&& count_is_2)

/-- Embedding of `compute_next_chunk_with_rule`: generic lookup-table path. -/
def compute_next_chunk_with_rule (above current below : Nat)
    (left_bit_above right_bit_above left_bit_current right_bit_current
      left_bit_below right_bit_below : Bool) (lookup : List Bool) : Nat :=
  let r := compute_neighbor_counts above current below
    left_bit_above right_bit_above left_bit_current right_bit_current
    left_bit_below right_bit_below
  apply_rule_lookup current r.1 r.2.1 r.2.2.1 r.2.2.2 lookup

/-- Embedding of `get_edge_bits`: boundary bits for a chunk with toroidal
wrapping; left bits come from bit 0 of the next chunk, right bits from bit 63
of the previous chunk, with wraparound at the row ends. -/
def get_edge_bits (grid : BitGrid) (chunk_x y chunk_width height : Nat) :
    Bool × Bool × Bool × Bool × Bool × Bool :=
  let ya := if y > 0 then y - 1 else height - 1
  let yb := if y + 1 < height then y + 1 else 0
  let next_chunk_x := if chunk_x + 1 < chunk_width then chunk_x + 1 else 0
  let left_above := (grid.get_chunk next_chunk_x ya) &&& 1 != 0
  let left_current := (grid.get_chunk next_chunk_x y) &&& 1 != 0
  let left_below := (grid.get_chunk next_chunk_x yb) &&& 1 != 0
  let prev_chunk_x := if chunk_x > 0 then chunk_x - 1 else chunk_width - 1
  let right_above := (grid.get_chunk prev_chunk_x ya) >>> 63 != 0
  let right_current := (grid.get_chunk prev_chunk_x y) >>> 63 != 0
  let right_below := (grid.get_chunk prev_chunk_x yb) >>> 63 != 0
  (left_above, right_above, left_current, right_current, left_below, right_below)

/-- Embedding of `evolve_simd`: word-parallel whole-grid evolution, iterating
every (row, chunk) pair and storing the kernel output with `set_chunk`. -/
def evolve_simd (grid : BitGrid) (rule : Rule) : BitGrid :=
  let width := grid.dimensions.1
  let height := grid.dimensions.2
  let chunk_width := (width + 63) / 64
  let lookup := build_rule_lookup rule
  (List.range height).foldl
    (fun next y =>
      (List.range chunk_width).foldl
        (fun next chunk_x =>
          let ya := if y > 0 then y - 1 else height - 1
          let yb := if y + 1 < height then y + 1 else 0
          let above := grid.get_chunk chunk_x ya
          let current := grid.get_chunk chunk_x y
          let below := grid.get_chunk chunk_x yb
          let e := get_edge_bits grid chunk_x y chunk_width height
          let next_chunk := compute_next_chunk_with_rule above current below
            e.1 e.2.1 e.2.2.1 e.2.2.2.1 e.2.2.2.2.1 e.2.2.2.2.2 lookup
          next.set_chunk chunk_x y next_chunk)
        next)
    (BitGrid.new width height)

/-- Embedding of `BitGrid::get_word64`: unaligned 64-bit read combining the
low bits of one chunk with the high bits of the next. -/
def BitGrid.get_word64 (g : BitGrid) (x y : Nat) : Nat :=
  let chunk_idx := y * g.chunk_width + x / 64
  let bit_idx := x % 64
  if chunk_idx ≥ g.chunks.length then 0
  else
    let low := g.chunks.getD chunk_idx 0 >>> bit_idx
    if bit_idx = 0 then low
    else if chunk_idx + 1 < g.chunks.length then
      low ||| ((g.chunks.getD (chunk_idx + 1) 0 <<< (64 - bit_idx)) % 2 ^ 64)
    else low

/-- Embedding of `BitGrid::set_word64_or`: unaligned 64-bit accumulate (OR)
write, possibly straddling two chunks. -/
def BitGrid.set_word64_or (g : BitGrid) (x y : Nat) (val : Nat) : BitGrid :=
  let chunk_idx := y * g.chunk_width + x / 64
  let bit_idx := x % 64
  if chunk_idx ≥ g.chunks.length then g
  else if bit_idx = 0 then
    { g with chunks := g.chunks.set chunk_idx (g.chunks.getD chunk_idx 0 ||| val) }
  else
    let low_updated := g.chunks.set chunk_idx
      (g.chunks.getD chunk_idx 0 ||| ((val <<< bit_idx) % 2 ^ 64))
    let g1 : BitGrid := { g with chunks := low_updated }
    if chunk_idx + 1 < g1.chunks.length then
      let high_updated := g1.chunks.set (chunk_idx + 1)
        (g1.chunks.getD (chunk_idx + 1) 0 ||| (val >>> (64 - bit_idx)))
      { g1 with chunks := high_updated }
    else g1

/-- Tile interior size from `temporal_blocking.rs` (`TILE_SIZE`). -/
def TILE_SIZE : Nat := 256

/-- Generations fused per tile (`GENERATIONS_PER_TILE`). -/
def GENERATIONS_PER_TILE : Nat := 4

/-- Halo width (`HALO_SIZE`), equal to the generations fused per tile. -/
def HALO_SIZE : Nat := GENERATIONS_PER_TILE

/-- Embedding of the `LocalTile` struct: halo-padded bit buffer. -/
structure LocalTile where
  width : Nat
  height : Nat
  data : List Nat
  chunk_width : Nat
deriving DecidableEq

/-- Embedding of `LocalTile::new`: zero-filled tile buffer. -/
def LocalTile.new (width height : Nat) : LocalTile :=
  { width := width
    height := height
    chunk_width := (width + 63) / 64
    data := List.replicate ((width + 63) / 64 * height) 0 }

/-- Embedding of `LocalTile::get`. -/
def LocalTile.get (t : LocalTile) (x y : Nat) : Bool :=
  if x ≥ t.width ∨ y ≥ t.height then false
  else (t.data.getD (y * t.chunk_width + x / 64) 0 >>> (x % 64)) &&& 1 != 0

/-- Embedding of `LocalTile::set`. -/
def LocalTile.set (t : LocalTile) (x y : Nat) (alive : Bool) : LocalTile :=
  if x ≥ t.width ∨ y ≥ t.height then t
  else
    let chunk_idx := y * t.chunk_width + x / 64
    let bit_idx := x % 64
    let updated :=
      if alive then t.data.getD chunk_idx 0 ||| (1 <<< bit_idx)
      else t.data.getD chunk_idx 0 &&& ((1 <<< bit_idx) ^^^ (2 ^ 64 - 1))
    { t with data := t.data.set chunk_idx updated }

/-- Embedding of `LocalTile::get_chunk`. -/
def LocalTile.get_chunk (t : LocalTile) (chunk_x y : Nat) : Nat :=
  if chunk_x ≥ t.chunk_width ∨ y ≥ t.height then 0
  else t.data.getD (y * t.chunk_width + chunk_x) 0

/-- Embedding of `LocalTile::set_chunk`. -/
def LocalTile.set_chunk (t : LocalTile) (chunk_x y : Nat) (val : Nat) : LocalTile :=
  if chunk_x ≥ t.chunk_width ∨ y ≥ t.height then t
  else { t with data := t.data.set (y * t.chunk_width + chunk_x) val }

/-- Embedding of `LocalTile::evolve_into`: one in-tile generation with dead
boundaries, writing every chunk of the destination buffer. -/
def LocalTile.evolve_into (t dest : LocalTile) (lookup : List Bool) : LocalTile :=
  (List.range t.height).foldl
    (fun d y =>
      let ya := if y > 0 then y - 1 else 0
      let yb := if y + 1 < t.height then y + 1 else 0
      (List.range t.chunk_width).foldl
        (fun d chunk_x =>
          let above := if y > 0 then t.get_chunk chunk_x ya else 0
          let current := t.get_chunk chunk_x y
          let below := if y + 1 < t.height then t.get_chunk chunk_x yb else 0
          let lv :=
            if chunk_x > 0 then
              (((t.get_chunk (chunk_x - 1) ya) >>> 63 != 0) && decide (y > 0),
                (t.get_chunk (chunk_x - 1) y) >>> 63 != 0,
                ((t.get_chunk (chunk_x - 1) yb) >>> 63 != 0) && decide (y + 1 < t.height))
            else (false, false, false)
          let rv :=
            if chunk_x + 1 < t.chunk_width then
              (((t.get_chunk (chunk_x + 1) ya) &&& 1 != 0) && decide (y > 0),
                (t.get_chunk (chunk_x + 1) y) &&& 1 != 0,
                ((t.get_chunk (chunk_x + 1) yb) &&& 1 != 0) && decide (y + 1 < t.height))
            else (false, false, false)
          let next_chunk := compute_next_chunk_with_rule above current below
            lv.1 rv.1 lv.2.1 rv.2.1 lv.2.2 rv.2.2 lookup
          d.set_chunk chunk_x y next_chunk)
        d)
    dest

/-- Embedding of `evolve_tile_n_gens`: repeated stepping with a scratch twin
buffer that is swapped with the primary after each generation. -/
def evolve_tile_n_gens (tile : LocalTile) (generations : Nat) (lookup : List Bool) :
    LocalTile :=
  ((List.range generations).foldl
    (fun (p : LocalTile × LocalTile) _ =>
      let aux := p.1.evolve_into p.2 lookup
      (aux, p.1))
    (tile, tile)).1

/-- Embedding of `copy_to_local_tile_fast`: word-aligned gather via unaligned
grid reads, masking bits beyond the tile width in the last chunk of a row. -/
def copy_to_local_tile_fast (grid : BitGrid) (start_x start_y width height : Nat) :
    LocalTile :=
  (List.range height).foldl
    (fun tile ly =>
      let global_y := start_y + ly
      (List.range tile.chunk_width).foldl
        (fun tile chunk_x =>
          let tile_bit_offset := chunk_x * 64
          if tile_bit_offset ≥ width then tile
          else
            let src_bit_start := start_x + tile_bit_offset
            let val := grid.get_word64 src_bit_start global_y
            let bits_remaining := width - tile_bit_offset
            let masked_val :=
              if bits_remaining < 64 then val &&& ((1 <<< bits_remaining) - 1) else val
            tile.set_chunk chunk_x ly masked_val)
        tile)
    (LocalTile.new width height)

/-- Embedding of `copy_to_local_tile`: fast path when the gathered region does
not wrap either grid edge, else cell-by-cell copy with modulo wrapping. -/
def copy_to_local_tile (grid : BitGrid) (tile_x tile_y local_width local_height : Nat) :
    LocalTile :=
  if tile_x + local_width ≤ grid.width ∧ tile_y + local_height ≤ grid.height then
    copy_to_local_tile_fast grid tile_x tile_y local_width local_height
  else
    (List.range local_height).foldl
      (fun tile ly =>
        (List.range local_width).foldl
          (fun tile lx =>
            let gx := (tile_x + lx) % grid.width
            let gy := (tile_y + ly) % grid.height
            if grid.get gx gy then tile.set lx ly true else tile)
          tile)
      (LocalTile.new local_width local_height)

/-- Embedding of `get_tile_u64_unaligned`: unaligned 64-bit read from a tile. -/
def get_tile_u64_unaligned (tile : LocalTile) (x y : Nat) : Nat :=
  let chunk_idx := y * tile.chunk_width + x / 64
  let bit_offset := x % 64
  if bit_offset = 0 then tile.data.getD chunk_idx 0
  else
    let low := tile.data.getD chunk_idx 0 >>> bit_offset
    let high :=
      if chunk_idx + 1 < tile.data.length then
        (tile.data.getD (chunk_idx + 1) 0 <<< (64 - bit_offset)) % 2 ^ 64
      else 0
    low ||| high

/-- Embedding of `copy_active_cells_to_grid_fast`: scatter the tile interior
with word-aligned OR writes into the (zeroed) output grid. -/
def copy_active_cells_to_grid_fast (tile : LocalTile) (grid : BitGrid)
    (start_x start_y width height halo : Nat) : BitGrid :=
  (List.range height).foldl
    (fun g ly =>
      let global_y := start_y + ly
      let local_y := ly + halo
      (List.range ((width + 63) / 64)).foldl
        (fun g k =>
          let bits_processed := k * 64
          if bits_processed < width then
            let tile_val := get_tile_u64_unaligned tile (halo + bits_processed) local_y
            let remaining := width - bits_processed
            let val :=
              if remaining < 64 then tile_val &&& ((1 <<< remaining) - 1) else tile_val
            g.set_word64_or (start_x + bits_processed) global_y val
          else g)
        g)
    grid

/-- Embedding of `copy_active_cells_to_grid`: fast path when the interior does
not wrap, else cell-by-cell wrapped writes. -/
def copy_active_cells_to_grid (tile : LocalTile) (grid : BitGrid)
    (tile_x tile_y inner_width inner_height halo : Nat) : BitGrid :=
  if tile_x + inner_width ≤ grid.width ∧ tile_y + inner_height ≤ grid.height then
    copy_active_cells_to_grid_fast tile grid tile_x tile_y inner_width inner_height halo
  else
    (List.range inner_height).foldl
      (fun g ly =>
        (List.range inner_width).foldl
          (fun g lx =>
            if tile.get (lx + halo) (ly + halo) then
              g.set ((tile_x + lx) % grid.width) ((tile_y + ly) % grid.height) true
            else g)
          g)
      grid

/-- Embedding of `evolve_temporal_blocking`: serial tiled evolution fusing
`generations` steps per tile (gather, step in tile, scatter interior). -/
def evolve_temporal_blocking (grid : BitGrid) (rule : Rule) (generations : Nat) :
    BitGrid :=
  let width := grid.dimensions.1
  let height := grid.dimensions.2
  let lookup := build_rule_lookup rule
  let tile_stride := TILE_SIZE
  (List.range ((height + tile_stride - 1) / tile_stride)).foldl
    (fun result tile_y_idx =>
      (List.range ((width + tile_stride - 1) / tile_stride)).foldl
        (fun result tile_x_idx =>
          let tile_x := tile_x_idx * tile_stride
          let tile_y := tile_y_idx * tile_stride
          let actual_width := min tile_stride (width - tile_x)
          let actual_height := min tile_stride (height - tile_y)
          let local_width := actual_width + 2 * HALO_SIZE
          let local_height := actual_height + 2 * HALO_SIZE
          let start_x := (tile_x + width - HALO_SIZE) % width
          let start_y := (tile_y + height - HALO_SIZE) % height
          let local0 := copy_to_local_tile grid start_x start_y local_width local_height
          let local1 := evolve_tile_n_gens local0 generations lookup
          copy_active_cells_to_grid local1 result tile_x tile_y
            actual_width actual_height HALO_SIZE)
        result)
    (BitGrid.new width height)

/-- Embedding of `evolve_temporal_blocking_parallel`: every tile is gathered
and stepped independently (in the source, on a task pool), then the collected
tile buffers are scattered sequentially into one fresh zeroed grid. -/
def evolve_temporal_blocking_parallel (grid : BitGrid) (rule : Rule)
    (generations : Nat) : BitGrid :=
  let width := grid.dimensions.1
  let height := grid.dimensions.2
  let lookup := build_rule_lookup rule
  let tile_stride := TILE_SIZE
  let num_tiles_x := (width + tile_stride - 1) / tile_stride
  let num_tiles_y := (height + tile_stride - 1) / tile_stride
  let total_tiles := num_tiles_x * num_tiles_y
  let tile_results : List (Nat × Nat × LocalTile) :=
    (List.range total_tiles).map
      (fun tile_idx =>
        let tile_x_idx := tile_idx % num_tiles_x
        let tile_y_idx := tile_idx / num_tiles_x
        let tile_x := tile_x_idx * tile_stride
        let tile_y := tile_y_idx * tile_stride
        let actual_width := min tile_stride (width - tile_x)
        let actual_height := min tile_stride (height - tile_y)
        let local_width := actual_width + 2 * HALO_SIZE
        let local_height := actual_height + 2 * HALO_SIZE
        let start_x := (tile_x + width - HALO_SIZE) % width
        let start_y := (tile_y + height - HALO_SIZE) % height
        let local0 := copy_to_local_tile grid start_x start_y local_width local_height
        (tile_x, tile_y, evolve_tile_n_gens local0 generations lookup))
  tile_results.foldl
    (fun result r =>
      let actual_width := min tile_stride (width - r.1)
      let actual_height := min tile_stride (height - r.2.1)
      copy_active_cells_to_grid r.2.2 result r.1 r.2.1
        actual_width actual_height HALO_SIZE)
    (BitGrid.new width height)

/-- Per-lane Boolean mirror of `full_adder`. -/
def full_adderB (a b c : Bool) : Bool × Bool :=
  ((a ^^ b) ^^ c, (a && b) || (c && (a ^^ b)))

/-- Per-lane Boolean mirror of `half_adder`. -/
def half_adderB (a b : Bool) : Bool × Bool :=
  ((a ^^ b), (a && b))

/-- Per-lane Boolean mirror of the carry-save adder network of
`compute_neighbor_counts`, acting on the eight neighbour bits of one lane. -/
def countBitsB (n0 n1 n2 n3 n4 n5 n6 n7 : Bool) : Bool × Bool × Bool × Bool :=
  let p1 := full_adderB n0 n1 n2
  let p2 := full_adderB n3 n4 n5
  let p3 := full_adderB n6 n7 false
  let pa := full_adderB p1.1 p2.1 p3.1
  let pb := full_adderB p1.2 p2.2 p3.2
  let q0 := half_adderB pa.1 false
  let q1 := full_adderB pb.1 pa.2 q0.2
  let q2 := full_adderB pb.2 false q1.2
  (q0.1, q1.1, q2.1, q2.2)

/-- The numeric value of bit `i` of the word `w` (0 or 1). -/
def bitn (w i : Nat) : Nat :=
  (w.testBit i).toNat

/-- Bit `i` of the `bit0` component of `compute_neighbor_counts` equals the
first component of the Boolean adder network applied to bit `i` of the eight
shifted neighbour words. -/
theorem cnc_bit0_testBit (a cu b : Nat) (l1 r1 l2 r2 l3 r3 : Bool) (i : Nat) :
    (compute_neighbor_counts a cu b l1 r1 l2 r2 l3 r3).1.testBit i =
    (countBitsB ((word_left a l1).testBit i) (a.testBit i)
      ((word_right a r1).testBit i) ((word_left cu l2).testBit i)
      ((word_right cu r2).testBit i) ((word_left b l3).testBit i)
      (b.testBit i) ((word_right b r3).testBit i)).1 := by
  simp only [compute_neighbor_counts, countBitsB, full_adder, full_adderB,
    half_adder, half_adderB, Nat.testBit_xor, Nat.testBit_and, Nat.testBit_or,
    Nat.zero_testBit]

/-- Bit `i` of the `bit1` component of `compute_neighbor_counts`, as the
second component of the Boolean adder network. -/
theorem cnc_bit1_testBit (a cu b : Nat) (l1 r1 l2 r2 l3 r3 : Bool) (i : Nat) :
    (compute_neighbor_counts a cu b l1 r1 l2 r2 l3 r3).2.1.testBit i =
    (countBitsB ((word_left a l1).testBit i) (a.testBit i)
      ((word_right a r1).testBit i) ((word_left cu l2).testBit i)
      ((word_right cu r2).testBit i) ((word_left b l3).testBit i)
      (b.testBit i) ((word_right b r3).testBit i)).2.1 := by
  simp only [compute_neighbor_counts, countBitsB, full_adder, full_adderB,
    half_adder, half_adderB, Nat.testBit_xor, Nat.testBit_and, Nat.testBit_or,
    Nat.zero_testBit]

/-- Bit `i` of the `bit2` component of `compute_neighbor_counts`, as the
third component of the Boolean adder network. -/
theorem cnc_bit2_testBit (a cu b : Nat) (l1 r1 l2 r2 l3 r3 : Bool) (i : Nat) :
    (compute_neighbor_counts a cu b l1 r1 l2 r2 l3 r3).2.2.1.testBit i =
    (countBitsB ((word_left a l1).testBit i) (a.testBit i)
      ((word_right a r1).testBit i) ((word_left cu l2).testBit i)
      ((word_right cu r2).testBit i) ((word_left b l3).testBit i)
      (b.testBit i) ((word_right b r3).testBit i)).2.2.1 := by
  simp only [compute_neighbor_counts, countBitsB, full_adder, full_adderB,
    half_adder, half_adderB, Nat.testBit_xor, Nat.testBit_and, Nat.testBit_or,
    Nat.zero_testBit]

/-- Bit `i` of the `bit3` component of `compute_neighbor_counts`, as the
fourth component of the Boolean adder network. -/
theorem cnc_bit3_testBit (a cu b : Nat) (l1 r1 l2 r2 l3 r3 : Bool) (i : Nat) :
    (compute_neighbor_counts a cu b l1 r1 l2 r2 l3 r3).2.2.2.testBit i =
    (countBitsB ((word_left a l1).testBit i) (a.testBit i)
      ((word_right a r1).testBit i) ((word_left cu l2).testBit i)
      ((word_right cu r2).testBit i) ((word_left b l3).testBit i)
      (b.testBit i) ((word_right b r3).testBit i)).2.2.2 := by
  simp only [compute_neighbor_counts, countBitsB, full_adder, full_adderB,
    half_adder, half_adderB, Nat.testBit_xor, Nat.testBit_and, Nat.testBit_or,
    Nat.zero_testBit]

/-- The four bits produced by the Boolean adder network encode, in binary,
the number of true inputs. -/
theorem countBitsB_sum (n0 n1 n2 n3 n4 n5 n6 n7 : Bool) :
    (countBitsB n0 n1 n2 n3 n4 n5 n6 n7).2.2.2.toNat * 8 +
      (countBitsB n0 n1 n2 n3 n4 n5 n6 n7).2.2.1.toNat * 4 +
      (countBitsB n0 n1 n2 n3 n4 n5 n6 n7).2.1.toNat * 2 +
      (countBitsB n0 n1 n2 n3 n4 n5 n6 n7).1.toNat =
    n0.toNat + n1.toNat + n2.toNat + n3.toNat + n4.toNat + n5.toNat +
      n6.toNat + n7.toNat := by
  revert n0 n1 n2 n3 n4 n5 n6 n7
  decide

/-- Claim C3: for all three input words, all six boundary bits and every lane
`i < 64`, the four output words of `compute_neighbor_counts` encode at lane
`i` the 4-bit value `bit3*8 + bit2*4 + bit1*2 + bit0`, equal to the exact sum
of the eight neighbour bits of lane `i` taken from the shifted
above/current/below words with the boundary bits injected at the vacated
ends. -/
theorem neighbor_counts_exact (above current below : Nat)
    (left_bit_above right_bit_above left_bit_current right_bit_current
      left_bit_below right_bit_below : Bool) (i : Nat) (_hi : i < 64) :
    bitn (compute_neighbor_counts above current below left_bit_above
        right_bit_above left_bit_current right_bit_current left_bit_below
        right_bit_below).2.2.2 i * 8 +
      bitn (compute_neighbor_counts above current below left_bit_above
        right_bit_above left_bit_current right_bit_current left_bit_below
        right_bit_below).2.2.1 i * 4 +
      bitn (compute_neighbor_counts above current below left_bit_above
        right_bit_above left_bit_current right_bit_current left_bit_below
        right_bit_below).2.1 i * 2 +
      bitn (compute_neighbor_counts above current below left_bit_above
        right_bit_above left_bit_current right_bit_current left_bit_below
        right_bit_below).1 i =
    bitn (word_left above left_bit_above) i + bitn above i +
      bitn (word_right above right_bit_above) i +
      bitn (word_left current left_bit_current) i +
      bitn (word_right current right_bit_current) i +
      bitn (word_left below left_bit_below) i + bitn below i +
      bitn (word_right below right_bit_below) i := by
  simp only [bitn, cnc_bit0_testBit, cnc_bit1_testBit, cnc_bit2_testBit,
    cnc_bit3_testBit]
  exact countBitsB_sum _ _ _ _ _ _ _ _

/-- Witness for C3 at concrete words, boundary bits and lane. -/
theorem neighbor_counts_exact_witness :
    (3 : Nat) < 64 ∧
    (bitn (compute_neighbor_counts 5 7 9 true false true false true false).2.2.2 3 * 8 +
      bitn (compute_neighbor_counts 5 7 9 true false true false true false).2.2.1 3 * 4 +
      bitn (compute_neighbor_counts 5 7 9 true false true false true false).2.1 3 * 2 +
      bitn (compute_neighbor_counts 5 7 9 true false true false true false).1 3 =
    bitn (word_left 5 true) 3 + bitn 5 3 + bitn (word_right 5 false) 3 +
      bitn (word_left 7 true) 3 + bitn (word_right 7 false) 3 +
      bitn (word_left 9 true) 3 + bitn 9 3 + bitn (word_right 9 false) 3) :=
  ⟨by decide, neighbor_counts_exact 5 7 9 true false true false true false 3 (by decide)⟩

/-- Extracting bit `i` of a word by shift-and-mask equals `testBit`. -/
theorem shr_and_one (w i : Nat) : (w >>> i) &&& 1 = (w.testBit i).toNat := by
  rw [Nat.toNat_testBit, Nat.and_one_is_mod, Nat.shiftRight_eq_div_pow]

/-- Bit `j` of an accumulate-OR loop over lanes `0..n`: the bit is set iff it
was set in the accumulator or its lane is below `n` and its condition holds. -/
theorem foldl_or_shift_testBit (f : Nat → Bool) (n acc j : Nat) :
    ((List.range n).foldl
      (fun result i => if f i then result ||| (1 <<< i) else result) acc).testBit j =
    (acc.testBit j || (decide (j < n) && f j)) := by
  induction n generalizing acc with
  | zero => simp
  | succ n ih =>
    rw [List.range_succ, List.foldl_append, List.foldl_cons, List.foldl_nil]
    by_cases hf : f n
    · rw [if_pos hf, Nat.testBit_or, ih, Nat.one_shiftLeft, Nat.testBit_two_pow]
      by_cases hj : j < n
      · have hj1 : j < n + 1 := by omega
        have hne : n ≠ j := by omega
        simp [hj, hj1, hne]
      · by_cases hjn : n = j
        · subst hjn
          simp [hf, hj]
        · have hj1 : ¬ j < n + 1 := by omega
          simp [hj, hjn, hj1]
    · rw [if_neg hf, ih]
      by_cases hj : j < n
      · have hj1 : j < n + 1 := by omega
        simp [hj, hj1]
      · by_cases hjn : j = n
        · subst hjn
          simp [hf, hj]
        · have hj1 : ¬ j < n + 1 := by omega
          simp [hj, hj1]

/-- Bit `j` of `apply_rule_lookup` is set iff `j` is a valid lane whose
looked-up next state is alive. -/
theorem apply_rule_lookup_testBit (current b0 b1 b2 b3 : Nat)
    (lookup : List Bool) (j : Nat) :
    (apply_rule_lookup current b0 b1 b2 b3 lookup).testBit j =
    (decide (j < 64) && lane_alive current b0 b1 b2 b3 lookup j) := by
  unfold apply_rule_lookup
  rw [foldl_or_shift_testBit (fun i => lane_alive current b0 b1 b2 b3 lookup i) 64 0 j]
  simp

/-- The lane condition of `apply_rule_lookup` in terms of `testBit`. -/
theorem lane_alive_eq (current b0 b1 b2 b3 : Nat) (lookup : List Bool) (i : Nat) :
    lane_alive current b0 b1 b2 b3 lookup i =
    lookup.getD (((current.testBit i).toNat <<< 4) |||
      (((b3.testBit i).toNat <<< 3) ||| ((b2.testBit i).toNat <<< 2) |||
        ((b1.testBit i).toNat <<< 1) ||| (b0.testBit i).toNat)) false := by
  simp only [lane_alive, shr_and_one]

/-- The shifted word fetching lane+1 neighbours fits in 64 bits. -/
theorem word_left_lt (w : Nat) (b : Bool) (hw : w < 2 ^ 64) :
    word_left w b < 2 ^ 64 := by
  unfold word_left
  apply Nat.or_lt_two_pow
  · have hle : w >>> 1 ≤ w := by
      rw [Nat.shiftRight_eq_div_pow]
      exact Nat.div_le_self _ _
    exact lt_of_le_of_lt hle hw
  · cases b <;> norm_num [Nat.one_shiftLeft]

/-- The shifted word fetching lane-1 neighbours fits in 64 bits. -/
theorem word_right_lt (w : Nat) (b : Bool) : word_right w b < 2 ^ 64 := by
  unfold word_right
  apply Nat.or_lt_two_pow
  · exact Nat.mod_lt _ (by norm_num)
  · cases b <;> norm_num

/-- Per-lane agreement of the closed-form Conway expression with the lookup
table built from the Conway rule, over all 512 combinations of the current
bit and the eight neighbour bits of the lane. -/
theorem conway_lane_eq (c n0 n1 n2 n3 n4 n5 n6 n7 : Bool) :
    ((!(countBitsB n0 n1 n2 n3 n4 n5 n6 n7).2.2.2 &&
        !(countBitsB n0 n1 n2 n3 n4 n5 n6 n7).2.2.1 &&
        (countBitsB n0 n1 n2 n3 n4 n5 n6 n7).2.1 &&
        (countBitsB n0 n1 n2 n3 n4 n5 n6 n7).1) ||
      (c && (!(countBitsB n0 n1 n2 n3 n4 n5 n6 n7).2.2.2 &&
        !(countBitsB n0 n1 n2 n3 n4 n5 n6 n7).2.2.1 &&
        (countBitsB n0 n1 n2 n3 n4 n5 n6 n7).2.1 &&
        !(countBitsB n0 n1 n2 n3 n4 n5 n6 n7).1))) =
    (build_rule_lookup Rule.conway).getD ((c.toNat <<< 4) |||
      (((countBitsB n0 n1 n2 n3 n4 n5 n6 n7).2.2.2.toNat <<< 3) |||
        ((countBitsB n0 n1 n2 n3 n4 n5 n6 n7).2.2.1.toNat <<< 2) |||
        ((countBitsB n0 n1 n2 n3 n4 n5 n6 n7).2.1.toNat <<< 1) |||
        (countBitsB n0 n1 n2 n3 n4 n5 n6 n7).1.toNat)) false := by
  revert c n0 n1 n2 n3 n4 n5 n6 n7
  decide

/-- Claim C4: for all input words (as 64-bit values) and all boundary bits,
the closed-form Conway fast path `compute_next_chunk_conway` returns the same
word as the generic lookup path `compute_next_chunk_with_rule` run with the
table built from the classic Conway rule. -/
theorem conway_fast_path_eq (above current below : Nat)
    (ha : above < 2 ^ 64) (hc : current < 2 ^ 64) (hb : below < 2 ^ 64)
    (l1 r1 l2 r2 l3 r3 : Bool) :
    compute_next_chunk_conway above current below l1 r1 l2 r2 l3 r3 =
    compute_next_chunk_with_rule above current below l1 r1 l2 r2 l3 r3
      (build_rule_lookup Rule.conway) := by
  apply Nat.eq_of_testBit_eq
  intro i
  simp only [compute_next_chunk_conway, compute_next_chunk_with_rule]
  rw [apply_rule_lookup_testBit, lane_alive_eq]
  simp only [Nat.testBit_or, Nat.testBit_and, Nat.testBit_xor,
    Nat.testBit_two_pow_sub_one, cnc_bit0_testBit, cnc_bit1_testBit,
    cnc_bit2_testBit, cnc_bit3_testBit]
  by_cases hi : i < 64
  · simp only [hi, decide_True, Bool.xor_true, Bool.true_and]
    exact conway_lane_eq (current.testBit i) _ _ _ _ _ _ _ _
  · have h64 : (2 : Nat) ^ 64 ≤ 2 ^ i := Nat.pow_le_pow_right (by norm_num) (by omega)
    have e0 : (word_left above l1).testBit i = false :=
      Nat.testBit_lt_two_pow (lt_of_lt_of_le (word_left_lt _ _ ha) h64)
    have e1 : above.testBit i = false :=
      Nat.testBit_lt_two_pow (lt_of_lt_of_le ha h64)
    have e2 : (word_right above r1).testBit i = false :=
      Nat.testBit_lt_two_pow (lt_of_lt_of_le (word_right_lt _ _) h64)
    have e3 : (word_left current l2).testBit i = false :=
      Nat.testBit_lt_two_pow (lt_of_lt_of_le (word_left_lt _ _ hc) h64)
    have e4 : (word_right current r2).testBit i = false :=
      Nat.testBit_lt_two_pow (lt_of_lt_of_le (word_right_lt _ _) h64)
    have e5 : (word_left below l3).testBit i = false :=
      Nat.testBit_lt_two_pow (lt_of_lt_of_le (word_left_lt _ _ hb) h64)
    have e6 : below.testBit i = false :=
      Nat.testBit_lt_two_pow (lt_of_lt_of_le hb h64)
    have e7 : (word_right below r3).testBit i = false :=
      Nat.testBit_lt_two_pow (lt_of_lt_of_le (word_right_lt _ _) h64)
    have ec : current.testBit i = false :=
      Nat.testBit_lt_two_pow (lt_of_lt_of_le hc h64)
    simp [hi, e0, e1, e2, e3, e4, e5, e6, e7, ec, countBitsB, full_adderB,
      half_adderB]

/-- Witness for C4 at concrete in-range words and boundary bits. -/
theorem conway_fast_path_eq_witness :
    ((123456789 : Nat) < 2 ^ 64 ∧ (2 : Nat) ^ 63 < 2 ^ 64 ∧
      (987654321 : Nat) < 2 ^ 64) ∧
    compute_next_chunk_conway 123456789 (2 ^ 63) 987654321
      true false true true false true =
    compute_next_chunk_with_rule 123456789 (2 ^ 63) 987654321
      true false true true false true (build_rule_lookup Rule.conway) :=
  ⟨⟨by norm_num, by norm_num, by norm_num⟩,
    conway_fast_path_eq 123456789 (2 ^ 63) 987654321 (by norm_num) (by norm_num)
      (by norm_num) true false true true false true⟩

/-- Failing input for claim C1: a 10 by 3 grid (width not a multiple of 64)
with a vertical blinker in the last column, so that evolution must wrap
horizontally through the torus seam. -/
def c1_grid : BitGrid :=
  (((BitGrid.new 10 3).set 9 0 true).set 9 1 true).set 9 2 true

/-- Claim C1 (refuted, code bug): on the 10-wide grid `c1_grid`, serial and
parallel cell-by-cell evolution birth the wrapped cell (0,1), which has three
toroidal neighbours in column 9, but the word-parallel path `evolve_simd`
leaves it dead: at a width that is not a multiple of 64 its horizontal wrap
reads bit 63 and the lane just past the declared width of the row's last
chunk (padding positions) instead of the true edge columns. -/
theorem simd_wrap_divergence :
    (c1_grid.evolve Rule.conway).get 0 1 = true ∧
    (c1_grid.evolve_parallel Rule.conway).get 0 1 = true ∧
    (evolve_simd c1_grid Rule.conway).get 0 1 = false ∧
    c1_grid.evolve Rule.conway = c1_grid.evolve_parallel Rule.conway := by
  refine ⟨by decide, by decide, by decide, by decide⟩

/-- Failing input for claim C2: a 10 by 10 grid with a 2 by 2 block still
life straddling the horizontal torus seam (columns 9 and 0, rows 4 and 5). -/
def c2_grid : BitGrid :=
  ((((BitGrid.new 10 10).set 9 4 true).set 0 4 true).set 9 5 true).set 0 5 true

/-- Second failing input for claim C2: a 128 by 8 grid (width a multiple of
64) with a horizontal blinker at columns 59..61 of row 4, which inside the
gathered tile straddles the boundary between the tile's first and second
64-bit chunks. -/
def c2b_grid : BitGrid :=
  (((BitGrid.new 128 8).set 59 4 true).set 60 4 true).set 61 4 true

/-- Claim C2 (refuted, code bug): with `generations = 4` (the halo size) the
two sides disagree in both directions. On `c2_grid` (width 10), the blocked
paths preserve the seam-straddling block (a toroidal still life, as one
serial evolution step confirms) but four repeated `evolve_simd` steps kill
every cell, since `evolve_simd` never sees neighbours across the torus seam
at a width that is not a multiple of 64. On `c2b_grid` (width 128, where
`evolve_simd` is exact), four `evolve_simd` steps return the blinker to its
original phase, but both blocked paths kill it, because
`LocalTile::evolve_into` feeds bit 63 of chunk `c-1` as the left boundary bit
and bit 0 of chunk `c+1` as the right one - the opposite of `get_edge_bits` -
so cells at tile-internal chunk boundaries see wrong neighbours. -/
theorem temporal_blocking_divergence :
    ((evolve_simd (evolve_simd (evolve_simd (evolve_simd c2_grid Rule.conway)
        Rule.conway) Rule.conway) Rule.conway).get 9 4 = false ∧
      (evolve_temporal_blocking c2_grid Rule.conway 4).get 9 4 = true ∧
      (evolve_temporal_blocking_parallel c2_grid Rule.conway 4).get 9 4 = true ∧
      c2_grid.evolve Rule.conway = c2_grid) ∧
    ((evolve_simd (evolve_simd (evolve_simd (evolve_simd c2b_grid Rule.conway)
        Rule.conway) Rule.conway) Rule.conway).get 59 4 = true ∧
      (evolve_temporal_blocking c2b_grid Rule.conway 4).get 59 4 = false ∧
      (evolve_temporal_blocking_parallel c2b_grid Rule.conway 4).get 59 4 = false) := by
  refine ⟨⟨by decide, by decide, by decide, by decide⟩,
    ⟨by decide, by decide, by decide⟩⟩

/-- Horizontal blinker centred at (5,5) on a 10 by 10 grid, for claim C7. -/
def blinker_h : BitGrid :=
  (((BitGrid.new 10 10).set 4 5 true).set 5 5 true).set 6 5 true

/-- Vertical blinker centred at (5,5) on a 10 by 10 grid, for claim C7. -/
def blinker_v : BitGrid :=
  (((BitGrid.new 10 10).set 5 4 true).set 5 5 true).set 5 6 true

/-- Claim C7: under the Conway rule the horizontal blinker becomes the
vertical blinker after one step and returns to itself after two, for each of
the five evolution paths (serial, parallel, word-parallel, blocked serial
with one generation, blocked parallel with one generation). -/
theorem blinker_oscillates_all_paths :
    (blinker_h.evolve Rule.conway = blinker_v ∧
      (blinker_h.evolve Rule.conway).evolve Rule.conway = blinker_h) ∧
    (blinker_h.evolve_parallel Rule.conway = blinker_v ∧
      (blinker_h.evolve_parallel Rule.conway).evolve_parallel Rule.conway = blinker_h) ∧
    (evolve_simd blinker_h Rule.conway = blinker_v ∧
      evolve_simd (evolve_simd blinker_h Rule.conway) Rule.conway = blinker_h) ∧
    (evolve_temporal_blocking blinker_h Rule.conway 1 = blinker_v ∧
      evolve_temporal_blocking (evolve_temporal_blocking blinker_h Rule.conway 1)
        Rule.conway 1 = blinker_h) ∧
    (evolve_temporal_blocking_parallel blinker_h Rule.conway 1 = blinker_v ∧
      evolve_temporal_blocking_parallel
        (evolve_temporal_blocking_parallel blinker_h Rule.conway 1)
        Rule.conway 1 = blinker_h) := by
  refine ⟨⟨by decide, by decide⟩, ⟨by decide, by decide⟩, ⟨by decide, by decide⟩,
    ⟨by decide, by decide⟩, ⟨by decide, by decide⟩⟩

/-- Claim C5: for each of the four supported rule variants and every neighbour
count 0..8, slot `count` of the 32-entry lookup table equals direct evaluation
of the rule at a dead cell and slot `16 + count` at an alive cell. -/
theorem rule_lookup_matches (r : Rule) (c : Fin 9) :
    (build_rule_lookup r).getD c.val false =
      (r.evolve Cell.Dead c.val == Cell.Alive) ∧
    (build_rule_lookup r).getD (16 + c.val) false =
      (r.evolve Cell.Alive c.val == Cell.Alive) := by
  revert r c
  decide

/-- The tile enumeration of `evolve_temporal_blocking` (and its parallel
variant, which enumerates exactly the same `(tile_x_idx, tile_y_idx)` pairs
through `tile_idx % num_tiles_x` and `tile_idx / num_tiles_x`) reaches an
unsigned underflow in the tile-start computation `tile_x + width - HALO_SIZE`
or `tile_y + height - HALO_SIZE` for some enumerated tile. -/
def tb_underflows (width height : Nat) : Prop :=
  ∃ tyi < (height + TILE_SIZE - 1) / TILE_SIZE,
    ∃ txi < (width + TILE_SIZE - 1) / TILE_SIZE,
      (txi * TILE_SIZE + width < HALO_SIZE ∨ tyi * TILE_SIZE + height < HALO_SIZE)

/-- Counterexample to claim C10 as stated: the 0 by 5 grid has width < 4, yet
its tile enumeration is empty (zero tile columns), so the subtraction is
never evaluated and no underflow occurs. -/
theorem tb_underflow_counterexample :
    ((0 : Nat) < 4 ∨ (5 : Nat) < 4) ∧ ¬ tb_underflows 0 5 := by
  constructor
  · left
    norm_num
  · unfold tb_underflows
    decide

/-- Claim C10 (amended): on a grid with at least one tile in each direction
(width ≥ 1 and height ≥ 1), width < 4 or height < 4 makes the tile-start
subtraction underflow at the first tile; and under the precondition
width ≥ 4 and height ≥ 4 no enumerated tile underflows. -/
theorem tb_underflow_iff_small (w h : Nat) :
    (1 ≤ w → 1 ≤ h → (w < 4 ∨ h < 4) → tb_underflows w h) ∧
    (4 ≤ w → 4 ≤ h → ¬ tb_underflows w h) := by
  constructor
  · intro hw hh hsm
    refine ⟨0, ?_, 0, ?_, ?_⟩
    · exact Nat.div_pos (by simp [TILE_SIZE]; omega) (by simp [TILE_SIZE])
    · exact Nat.div_pos (by simp [TILE_SIZE]; omega) (by simp [TILE_SIZE])
    · simp only [HALO_SIZE, GENERATIONS_PER_TILE, Nat.zero_mul, Nat.zero_add]
      omega
  · rintro h4w h4h ⟨tyi, _, txi, _, hcase⟩
    simp only [HALO_SIZE, GENERATIONS_PER_TILE] at hcase
    omega

/-- Witness for the amended C10 at concrete grid sizes on both sides. -/
theorem tb_underflow_iff_small_witness :
    tb_underflows 2 5 ∧ ¬ tb_underflows 4 4 :=
  ⟨(tb_underflow_iff_small 2 5).1 (by norm_num) (by norm_num)
      (Or.inl (by norm_num)),
    (tb_underflow_iff_small 4 4).2 (by norm_num) (by norm_num)⟩

/-- Claim C6: out-of-range cell reads return dead and out-of-range cell writes
leave the grid entirely unchanged, for arbitrarily large coordinates. -/
theorem get_set_out_of_range (g : BitGrid) (x y : Nat) (b : Bool)
    (h : x ≥ g.width ∨ y ≥ g.height) :
    g.get x y = false ∧ g.set x y b = g := by
  constructor
  · unfold BitGrid.get
    rw [if_pos h]
  · unfold BitGrid.set
    rw [if_pos h]

/-- Witness for C6 at a concrete grid and concrete far-out-of-range input. -/
theorem get_set_out_of_range_witness :
    ((1000000 : Nat) ≥ ((BitGrid.new 10 10).set 3 4 true).width ∨
      (7 : Nat) ≥ ((BitGrid.new 10 10).set 3 4 true).height) ∧
    (((BitGrid.new 10 10).set 3 4 true).get 1000000 7 = false ∧
      ((BitGrid.new 10 10).set 3 4 true).set 1000000 7 true =
        (BitGrid.new 10 10).set 3 4 true) :=
  ⟨by decide, get_set_out_of_range _ 1000000 7 true (by decide)⟩

/-- Claim C9: out-of-range word reads via `get_chunk` return 0 and
out-of-range word writes via `set_chunk` leave the grid unchanged. -/
theorem chunk_access_out_of_range (g : BitGrid) (chunk_x y v : Nat)
    (h : chunk_x ≥ g.chunk_width ∨ y ≥ g.height) :
    g.get_chunk chunk_x y = 0 ∧ g.set_chunk chunk_x y v = g := by
  constructor
  · unfold BitGrid.get_chunk
    rw [if_pos h.symm]
  · unfold BitGrid.set_chunk
    rw [if_pos h.symm]

/-- Witness for C9 at a concrete grid and concrete out-of-range input. -/
theorem chunk_access_out_of_range_witness :
    ((2 : Nat) ≥ ((BitGrid.new 70 5).set 64 1 true).chunk_width ∨
      (0 : Nat) ≥ ((BitGrid.new 70 5).set 64 1 true).height) ∧
    (((BitGrid.new 70 5).set 64 1 true).get_chunk 2 0 = 0 ∧
      ((BitGrid.new 70 5).set 64 1 true).set_chunk 2 0 77 =
        (BitGrid.new 70 5).set 64 1 true) :=
  ⟨by decide, chunk_access_out_of_range _ 2 0 77 (by decide)⟩

/-- Claim C8: `memory_bytes` of a freshly constructed grid is
`ceil(width/64) * height * 8`, and for 1000 by 1000 that is at least 7 times
smaller than the naive one byte per cell representation. -/
theorem memory_bytes_formula :
    (∀ width height : Nat,
      (BitGrid.new width height).memory_bytes = (width + 63) / 64 * height * 8) ∧
    7 * (BitGrid.new 1000 1000).memory_bytes ≤ 1000 * 1000 := by
  constructor
  · intro w h
    simp [BitGrid.new, BitGrid.memory_bytes]
  · norm_num [BitGrid.new, BitGrid.memory_bytes]

end GameOfLife
